import Mathlib

/-
Verification of the prediction feature pipeline of the Dashboard-ShriMP
repository (`queries.py` and `pages/1_Prediction.py`).

The Python data-frame code is shallowly embedded: frames become lists of
rows, `NaN` becomes `Option`, numeric values are rationals, and calendar
dates are integer day numbers (day 0 = 1970-01-01) together with the usual
civil-calendar conversions.  Each embedded definition mirrors one step of
the source pipeline; the theorems at the end of the file settle the claims
of the specification against these definitions.
-/

namespace ShriMP

/-! ## Calendar arithmetic

Integer day numbers with day 0 = 1970-01-01, using the standard civil
calendar conversion algorithms.  All divisions are on non-negative
operands, where Lean's integer division agrees with floor division. -/

/-- Day number of the civil date `y-m-d` (day 0 = 1970-01-01). -/
def daysFromCivil (y m d : Int) : Int :=
  let y := if m ≤ 2 then y - 1 else y
  let era := (if 0 ≤ y then y else y - 399) / 400
  let yoe := y - era * 400
  let mp := if 2 < m then m - 3 else m + 9
  let doy := (153 * mp + 2) / 5 + d - 1
  let doe := yoe * 365 + yoe / 4 - yoe / 100 + doy
  era * 146097 + doe - 719468

/-- Civil date `(year, month, day)` of the day number `z`. -/
def civilFromDays (z : Int) : Int × Int × Int :=
  let z := z + 719468
  let era := (if 0 ≤ z then z else z - 146096) / 146097
  let doe := z - era * 146097
  let yoe := (doe - doe / 1460 + doe / 36524 - doe / 146096) / 365
  let y := yoe + era * 400
  let doy := doe - (365 * yoe + yoe / 4 - yoe / 100)
  let mp := (5 * doy + 2) / 153
  let d := doy - (153 * mp + 2) / 5 + 1
  let m := mp + (if mp < 10 then 3 else -9)
  (if m ≤ 2 then y + 1 else y, m, d)

/-- Calendar year of a day number (the `YEAR(...)` of the SQL queries). -/
def yearOfDay (z : Int) : Int := (civilFromDays z).1

/-- Calendar month of a day number (the `MONTH(...)` of the SQL queries). -/
def monthOfDay (z : Int) : Int := (civilFromDays z).2.1

/-- Weekday of a day number with Monday = 0 (1970-01-01 was a Thursday). -/
def weekdayMon (z : Int) : Int := (z + 3) % 7

/-- The Sunday ending the week of day `z`: the bucket label that pandas
`resample("W")` assigns to that day. -/
def weekEnd (z : Int) : Int := z + (6 - weekdayMon z)

/-- ISO-8601 week number of day `z`, as produced by pandas
`DatetimeIndex.isocalendar().week`. -/
def isoWeek (z : Int) : Int :=
  let thu := z - weekdayMon z + 3
  (thu - daysFromCivil (yearOfDay thu) 1 1) / 7 + 1

/-! ## List utilities -/

/-- Sum of a list of rationals (pandas `sum` aggregation; empty sum is 0). -/
def sumList (xs : List ℚ) : ℚ := xs.foldr (· + ·) 0

/-- Mean of a list of rationals (pandas `mean` aggregation). -/
def meanList (xs : List ℚ) : ℚ := sumList xs / (xs.length : ℚ)

/-- Tail of the first-occurrence scan: elements of the remaining list not
already seen, each kept once. -/
def uniqueKeysAux {α : Type} [DecidableEq α] : List α → List α → List α
  | _, [] => []
  | seen, x :: xs =>
    if x ∈ seen then uniqueKeysAux seen xs
    else x :: uniqueKeysAux (x :: seen) xs

/-- First occurrences of the elements of a list, in order: the distinct
group keys produced by a pandas `groupby`/`pivot_table` (key order is not
load-bearing for any claim, so insertion order stands in for pandas's
sorted order). -/
def uniqueKeys {α : Type} [DecidableEq α] (l : List α) : List α :=
  uniqueKeysAux [] l

theorem mem_uniqueKeysAux {α : Type} [DecidableEq α] (l : List α) :
    ∀ (seen : List α) (x : α), x ∈ uniqueKeysAux seen l ↔ (x ∈ l ∧ x ∉ seen) := by
  induction l with
  | nil => intro seen x; simp [uniqueKeysAux]
  | cons a xs ih =>
    intro seen x
    by_cases ha : a ∈ seen
    · simp only [uniqueKeysAux, if_pos ha, ih, List.mem_cons]
      by_cases hxa : x = a
      · subst hxa; simp [ha]
      · simp [hxa]
    · simp only [uniqueKeysAux, if_neg ha, List.mem_cons, ih]
      by_cases hxa : x = a
      · subst hxa; simp [ha]
      · simp [hxa]

theorem mem_uniqueKeys {α : Type} [DecidableEq α] (l : List α) (x : α) :
    x ∈ uniqueKeys l ↔ x ∈ l := by
  simp [uniqueKeys, mem_uniqueKeysAux]

end ShriMP

namespace ShriMP

/-! ## Share-of-wallet aggregation (`get_sow_for_prediction`, queries.py)

The SQL read joins `sow` with `cliente` and filters on the year/month of
`fecha_periodo`; the frame is then grouped by `(FECHA, COD_CLIENTE)` with
the fixed aggregation dictionary
`{"POTENCIAL_GRUPO": "sum", "NICOVITA": "mean", "SOW_MAX_ALCANZABLE": "mean"}`. -/

/-- One row of the `sow` table joined with `cliente` as read by
`get_sow_for_prediction`. -/
structure SowRecord where
  fechaPeriodo : Int
  codCliente : String
  potencialGrupo : ℚ
  nicovita : ℚ
  sowMaxAlcanzable : ℚ
  deriving DecidableEq

/-- Aggregated metric values of one `(FECHA, COD_CLIENTE)` bucket. -/
structure SowAgg where
  potencialGrupo : ℚ
  nicovita : ℚ
  sowMaxAlcanzable : ℚ
  deriving DecidableEq

/-- The rows falling into the `(fecha, cliente)` bucket `k`. -/
def bucketOf (rs : List SowRecord) (k : Int × String) : List SowRecord :=
  rs.filter (fun r => r.fechaPeriodo == k.1 && r.codCliente == k.2)

/-- The fixed per-metric aggregation of `get_sow_for_prediction`:
`POTENCIAL_GRUPO` by sum, `NICOVITA` and `SOW_MAX_ALCANZABLE` by mean. -/
def aggBucket (b : List SowRecord) : SowAgg :=
  { potencialGrupo := sumList (b.map (·.potencialGrupo))
    nicovita := meanList (b.map (·.nicovita))
    sowMaxAlcanzable := meanList (b.map (·.sowMaxAlcanzable)) }

/-- The `groupby(["FECHA", "COD_CLIENTE"]).agg(...)` step of
`get_sow_for_prediction`. -/
def sowGroupby (rs : List SowRecord) : List ((Int × String) × SowAgg) :=
  (uniqueKeys (rs.map (fun r => (r.fechaPeriodo, r.codCliente)))).map
    (fun k => (k, aggBucket (bucketOf rs k)))

/-- The `WHERE` clause of the `sow` query: the period's year must equal the
year of `fecha_desde` and simultaneously the year of `fecha_hasta`, with the
month between the two boundary months. -/
def sowFilter (desde hasta fp : Int) : Bool :=
  (yearOfDay fp == yearOfDay desde && monthOfDay desde ≤ monthOfDay fp)
  && (yearOfDay fp == yearOfDay hasta && monthOfDay fp ≤ monthOfDay hasta)

/-- The rows returned by the `sow` SQL query for the window
`[desde, hasta]`. -/
def sowRowsFor (records : List SowRecord) (desde hasta : Int) : List SowRecord :=
  records.filter (fun r => sowFilter desde hasta r.fechaPeriodo)

/-! ## Per-column aggregation of the prediction page (`predict`)

`predict` builds `agregaciones = {col: "mean" if col in columns_promedio
else "sum" for col in columns_order}` and resamples with it. -/

/-- The two aggregation kinds appearing in the `agregaciones` dictionary. -/
inductive AggKind where
  | mean
  | sum
  deriving DecidableEq

/-- The `agregaciones` dictionary entry for one column. -/
def agregacion (columnsPromedio : List String) (col : String) : AggKind :=
  if col ∈ columnsPromedio then .mean else .sum

/-- Evaluation of one aggregation kind on the values of a bucket. -/
def applyAgg : AggKind → List ℚ → ℚ
  | .mean, xs => meanList xs
  | .sum, xs => sumList xs

/-- C1 counterexample: two duplicate rows of one `(date, client)` bucket with
`POTENCIAL_GRUPO` values `[2.0, 4.0]` aggregate to `6.0` (a sum), not to the
mean `3.0` that the claim assigns to the "potential group" metric. -/
theorem C1_counterexample :
    (sowGroupby [⟨0, "C1", 2, 2, 2⟩, ⟨0, "C1", 4, 4, 4⟩]).map
        (fun x => x.2.potencialGrupo) = [6]
    ∧ meanList [2, 4] = 3 ∧ (6 : ℚ) ≠ 3 := by
  refine ⟨?_, by norm_num [meanList, sumList], by norm_num⟩
  simp [sowGroupby, uniqueKeys, uniqueKeysAux, bucketOf, aggBucket, sumList]
  norm_num

/-- C1 (amended): within a `(date, client)` bucket of share-of-wallet rows,
`NICOVITA` and `SOW_MAX_ALCANZABLE` aggregate by mean but `POTENCIAL_GRUPO`
aggregates by sum; the prediction page's per-column dictionary gives
`[2.0, 4.0] ↦ 3.0` for a mean-flagged column and `[2.0, 4.0] ↦ 6.0` for a
sum-flagged one. -/
theorem C1_sow_bucket_aggregation (d : Int) (c : String) (p₁ p₂ n₁ n₂ s₁ s₂ : ℚ) :
    sowGroupby [⟨d, c, p₁, n₁, s₁⟩, ⟨d, c, p₂, n₂, s₂⟩] =
      [((d, c), ⟨p₁ + p₂, (n₁ + n₂) / 2, (s₁ + s₂) / 2⟩)]
    ∧ applyAgg .mean [2, 4] = 3 ∧ applyAgg .sum [2, 4] = 6 := by
  refine ⟨?_, by norm_num [applyAgg, meanList, sumList], by norm_num [applyAgg, sumList]⟩
  simp [sowGroupby, uniqueKeys, uniqueKeysAux, bucketOf, aggBucket, sumList, meanList]

/-! ## Wide-schema pivoting

Both `get_ventas_for_prediction` and `get_sow_for_prediction` pivot narrow
`(date, key, value)` rows into a wide frame (`pivot_table` + `fillna(0)`),
then `reindex` the columns onto a pre-declared canonical list with
`fill_value=0`.  `Option ℚ` models a nullable cell (`none` = NaN). -/

/-- A wide data frame: a column header and one list of nullable cells per
date, aligned positionally with the header. -/
structure Frame where
  cols : List String
  rows : List (Int × List (Option ℚ))
  deriving DecidableEq

/-- The values of the narrow rows falling into pivot cell `(d, k)`. -/
def pivotCellVals (cells : List (Int × String × ℚ)) (d : Int) (k : String) : List ℚ :=
  (cells.filter (fun c => c.1 == d && c.2.1 == k)).map (·.2.2)

/-- Pandas `pivot_table(index=date, columns=key, values=value, aggfunc=agg)`:
one row per distinct date, one column per distinct key, `NaN` (here `none`)
for combinations without a matching narrow row. -/
def pivotTable (cells : List (Int × String × ℚ)) (agg : List ℚ → ℚ) : Frame :=
  { cols := uniqueKeys (cells.map (·.2.1))
    rows := (uniqueKeys (cells.map (·.1))).map (fun d =>
      (d, (uniqueKeys (cells.map (·.2.1))).map (fun k =>
        if (pivotCellVals cells d k).isEmpty then none
        else some (agg (pivotCellVals cells d k))))) }

/-- Pandas `fillna(0)`: replace every null cell by 0. -/
def Frame.fillna0 (f : Frame) : Frame :=
  { f with rows := f.rows.map (fun r => (r.1, r.2.map (fun v => some (v.getD 0)))) }

/-- Positional lookup of a column value in one row, given the frame's
header; a column absent from the header yields the `reindex` fill value 0. -/
def lookupCell : List String → List (Option ℚ) → String → Option ℚ
  | [], _, _ => some 0
  | _ :: _, [], _ => some 0
  | c :: cs, v :: vs, k => if k == c then v else lookupCell cs vs k

/-- Pandas `reindex(columns=newCols, fill_value=0)`: keep exactly the
requested columns, filling columns that did not exist with 0. -/
def Frame.reindexCols (f : Frame) (newCols : List String) : Frame :=
  { cols := newCols
    rows := f.rows.map (fun r => (r.1, newCols.map (lookupCell f.cols r.2))) }

/-- The `pivot_table(...).fillna(0)` + `reindex(columns=..., fill_value=0)`
composition shared by the sales and SOW readers. -/
def pivotReindexed (cells : List (Int × String × ℚ)) (agg : List ℚ → ℚ)
    (cols₂ : List String) : Frame :=
  ((pivotTable cells agg).fillna0).reindexCols cols₂

theorem lookupCell_map (keys : List String) (g : String → Option ℚ) (k : String) :
    lookupCell keys (keys.map g) k = if k ∈ keys then g k else some 0 := by
  induction keys with
  | nil => simp [lookupCell]
  | cons c cs ih =>
    simp only [List.map_cons, lookupCell, List.mem_cons]
    by_cases hk : k = c
    · subst hk; simp
    · simp [hk, ih, beq_iff_eq]

theorem pivotCellVals_of_not_mem (cells : List (Int × String × ℚ)) (d : Int)
    (k : String) (hk : k ∉ cells.map (·.2.1)) : pivotCellVals cells d k = [] := by
  unfold pivotCellVals
  rw [List.filter_eq_nil_iff.mpr, List.map_nil]
  intro c hc
  simp only [Bool.and_eq_true, beq_iff_eq, not_and]
  intro _ hkc
  exact hk (List.mem_map.mpr ⟨c, hc, hkc⟩)

theorem pivotReindexed_spec (cells : List (Int × String × ℚ)) (agg : List ℚ → ℚ)
    (cols₂ : List String) :
    (pivotReindexed cells agg cols₂).cols = cols₂
    ∧ (∀ d : Int, d ∈ (pivotReindexed cells agg cols₂).rows.map Prod.fst
        ↔ d ∈ cells.map (·.1))
    ∧ ∀ r ∈ (pivotReindexed cells agg cols₂).rows, r.2 = cols₂.map (fun k =>
        some (if (pivotCellVals cells r.1 k).isEmpty then 0
              else agg (pivotCellVals cells r.1 k))) := by
  refine ⟨rfl, ?_, ?_⟩
  · intro d
    simp [pivotReindexed, Frame.reindexCols, Frame.fillna0, pivotTable,
      List.map_map, Function.comp_def, mem_uniqueKeys]
  · intro r hr
    simp only [pivotReindexed, Frame.reindexCols, Frame.fillna0, pivotTable,
      List.map_map, List.mem_map, Function.comp_def] at hr
    obtain ⟨d, _, rfl⟩ := hr
    simp only [List.map_map, Function.comp_def]
    apply List.map_congr_left
    intro k _
    rw [lookupCell_map]
    by_cases hmem : k ∈ uniqueKeys (cells.map (·.2.1))
    · simp only [hmem, if_pos]
      by_cases hempty : (pivotCellVals cells d k).isEmpty
      · simp [hempty]
      · simp [hempty]
    · have hk : k ∉ cells.map (·.2.1) := fun h => hmem ((mem_uniqueKeys _ _).mpr h)
      rw [pivotCellVals_of_not_mem cells d k hk]
      simp [hmem]

/-! ## Sales pivot (`get_ventas_for_prediction`, queries.py) -/

/-- The fixed line-group tags of the sales pivot. -/
def lineas : List String := ["SEEDING", "VOLUMA"]

/-- The `familias_lineas` cross product `familia × linea`. -/
def familiasLineas (familias : List String) : List String :=
  familias.flatMap (fun f => lineas.map (fun l => f ++ "_" ++ l))

/-- The canonical sales column list `columnas_esperadas` (without the
leading `FECHA`, which is the row index here): every family-line tag for
client slot 1, then for slot 2, etc. up to slot 7. -/
def columnasEsperadasVentas (familias : List String) : List String :=
  (List.range 7).flatMap (fun i =>
    (familiasLineas familias).map (fun fl => fl ++ "_" ++ toString (i + 1)))

/-- One row of `venta` joined with `cliente` and `producto` as read by
`get_ventas_for_prediction`. -/
structure VentaRecord where
  codCliente : Int
  familia : String
  fecha : Int
  grupoLinea : String
  toneladas : ℚ
  deriving DecidableEq

/-- The derived `CLIENTE_LINEA` pivot key:
`familia_grupoLinea_(cod_cliente - 2100000)`. -/
def clienteLinea (r : VentaRecord) : String :=
  r.familia ++ "_" ++ r.grupoLinea ++ "_" ++ toString (r.codCliente - 2100000)

/-- The narrow `(date, key, tonnage)` rows of the sales pivot, after the
SQL `BETWEEN` window filter. -/
def ventasCells (records : List VentaRecord) (desde hasta : Int) :
    List (Int × String × ℚ) :=
  (records.filter (fun r => desde ≤ r.fecha && r.fecha ≤ hasta)).map
    (fun r => (r.fecha, clienteLinea r, r.toneladas))

/-- The wide sales frame of `get_ventas_for_prediction` (tonnage summed per
cell, reindexed onto the canonical columns; `FECHA` is the row index and
the auxiliary `MES` column is kept implicit). -/
def getVentasForPrediction (records : List VentaRecord) (familias : List String)
    (desde hasta : Int) : Frame :=
  pivotReindexed (ventasCells records desde hasta) sumList
    (columnasEsperadasVentas familias)

/-! ## SOW pivot (`get_sow_for_prediction`, queries.py) -/

/-- The metric names of the SOW pivot, in source order. -/
def sowMetricNames : List String := ["NICOVITA", "POTENCIAL_GRUPO", "SOW_MAX_ALCANZABLE"]

/-- The canonical SOW column list `columnas_esperadas` (without `FECHA` and
`COD_CLIENTE`, both dropped at the end of the source function). -/
def columnasEsperadasSow : List String :=
  (List.range 7).flatMap (fun i => sowMetricNames.map (fun m => m ++ "_" ++ toString (i + 1)))

/-- Last character of a string, as a string: the `column[1][-1]` slot digit
the source extracts from the client code. -/
def lastChar (s : String) : String := (s.toList.getLast?).elim "" Char.toString

/-- The narrow `(date, metric-slot key, value)` rows of the SOW pivot,
built from the grouped buckets (three metrics per bucket). -/
def sowCells (records : List SowRecord) (desde hasta : Int) :
    List (Int × String × ℚ) :=
  (sowGroupby (sowRowsFor records desde hasta)).flatMap (fun x =>
    [(x.1.1, "NICOVITA_" ++ lastChar x.1.2, x.2.nicovita),
     (x.1.1, "POTENCIAL_GRUPO_" ++ lastChar x.1.2, x.2.potencialGrupo),
     (x.1.1, "SOW_MAX_ALCANZABLE_" ++ lastChar x.1.2, x.2.sowMaxAlcanzable)])

/-- The wide SOW frame of `get_sow_for_prediction`: grouped buckets pivoted
with `aggfunc="first"` and reindexed onto the canonical columns. -/
def getSowForPrediction (records : List SowRecord) (desde hasta : Int) : Frame :=
  pivotReindexed (sowCells records desde hasta) (fun vs => vs.headD 0)
    columnasEsperadasSow

theorem if_isEmpty_sumList (vs : List ℚ) :
    (if vs.isEmpty then 0 else sumList vs) = sumList vs := by
  cases vs <;> simp [sumList]

theorem if_isEmpty_headD (vs : List ℚ) :
    (if vs.isEmpty then 0 else vs.headD 0) = vs.headD 0 := by
  cases vs <;> simp

/-- C3 counterexample: with a single sale dated day 0 and the query window
`[0, 6]`, the pivot output has a row only for day 0 — day 1 lies in the
window but is omitted entirely, so its zero-filled `(date, key)`
combinations do not exist in the output. -/
theorem C3_counterexample :
    ((getVentasForPrediction [⟨2100001, "FAM", 0, "SEEDING", 5⟩] ["FAM"] 0 6).rows.map
      Prod.fst) = [0]
    ∧ (1 : Int) ∉ ((getVentasForPrediction [⟨2100001, "FAM", 0, "SEEDING", 5⟩]
        ["FAM"] 0 6).rows.map Prod.fst)
    ∧ (0 : Int) ≤ 1 ∧ (1 : Int) ≤ 6 := by decide

/-- C3 (amended): for every date range, the sales and SOW pivot outputs
carry exactly the canonical column set, and on every row that exists —
i.e. for every date with at least one in-window source row — each canonical
column holds the aggregate of its matching source rows, which is 0 (never
null) when no source row matches; dates with no in-window source rows
produce no output row at all. -/
theorem C3_zero_fill (vrecords : List VentaRecord) (familias : List String)
    (srecords : List SowRecord) (desde hasta : Int) :
    (getVentasForPrediction vrecords familias desde hasta).cols
      = columnasEsperadasVentas familias
    ∧ (∀ d : Int, d ∈ (getVentasForPrediction vrecords familias desde hasta).rows.map
          Prod.fst ↔ d ∈ (ventasCells vrecords desde hasta).map (·.1))
    ∧ (∀ r ∈ (getVentasForPrediction vrecords familias desde hasta).rows,
        r.2 = (columnasEsperadasVentas familias).map (fun k =>
          some (sumList (pivotCellVals (ventasCells vrecords desde hasta) r.1 k))))
    ∧ (getSowForPrediction srecords desde hasta).cols = columnasEsperadasSow
    ∧ (∀ d : Int, d ∈ (getSowForPrediction srecords desde hasta).rows.map
          Prod.fst ↔ d ∈ (sowCells srecords desde hasta).map (·.1))
    ∧ (∀ r ∈ (getSowForPrediction srecords desde hasta).rows,
        r.2 = columnasEsperadasSow.map (fun k =>
          some ((pivotCellVals (sowCells srecords desde hasta) r.1 k).headD 0))) := by
  obtain ⟨hv1, hv2, hv3⟩ := pivotReindexed_spec (ventasCells vrecords desde hasta)
    sumList (columnasEsperadasVentas familias)
  obtain ⟨hs1, hs2, hs3⟩ := pivotReindexed_spec (sowCells srecords desde hasta)
    (fun vs => vs.headD 0) columnasEsperadasSow
  refine ⟨hv1, hv2, ?_, hs1, hs2, ?_⟩
  · intro r hr
    rw [hv3 r hr]
    apply List.map_congr_left
    intro k _
    rw [if_isEmpty_sumList]
  · intro r hr
    rw [hs3 r hr]
    apply List.map_congr_left
    intro k _
    rw [if_isEmpty_headD]

/-- C3 witness: instantiating the zero-fill theorem on a concrete single
sale shows the one existing row holds the sale's tonnage in its column and
zero everywhere else. -/
theorem C3_zero_fill_witness :
    (some (5 : ℚ) :: List.replicate 13 (some (0 : ℚ)))
      = (columnasEsperadasVentas ["FAM"]).map (fun k =>
          some (sumList (pivotCellVals
            (ventasCells [⟨2100001, "FAM", 0, "SEEDING", 5⟩] 0 6) 0 k))) := by
  have hrows : (getVentasForPrediction [⟨2100001, "FAM", 0, "SEEDING", 5⟩]
      ["FAM"] 0 6).rows = [(0, some 5 :: List.replicate 13 (some 0))] := by
    simp only [getVentasForPrediction, pivotReindexed, pivotTable, Frame.fillna0,
      Frame.reindexCols, ventasCells, clienteLinea, columnasEsperadasVentas,
      familiasLineas, lineas, uniqueKeys, uniqueKeysAux, pivotCellVals, lookupCell,
      sumList]
    norm_num [List.filter, List.flatMap, lookupCell, uniqueKeysAux, List.replicate,
      List.range_succ, Function.comp_def, List.flatten]
    decide
  have h := (C3_zero_fill [⟨2100001, "FAM", 0, "SEEDING", 5⟩] ["FAM"] [] 0 6).2.2.1
    (0, some 5 :: List.replicate 13 (some 0))
    (by rw [hrows]; exact List.mem_singleton_self _)
  exact h

/-! ## Prediction data assembly (`get_prediction_data`, queries.py)

The five per-source reads run sequentially inside one `try` block; the
frames are then left-merged (ventas ⟕ sow on `MES`, then ⟕ exportaciones,
⟕ materia prima, ⟕ precios camarón on `FECHA`) and the merged table is
zero-filled.  Any exception collapses to `("Something went wrong", 500)`. -/

/-- Window start of a prediction request: `date - timedelta(weeks=4)`. -/
def fechaDesde (date : Int) : Int := date - 28

/-- Window end of a prediction request: `date - timedelta(days=1)`. -/
def fechaHasta (date : Int) : Int := date - 1

/-- One row of the sales wide frame together with its derived `MES` month
key, as it enters the ventas-SOW merge. -/
structure VentasRow where
  fecha : Int
  mes : Int
  values : List ℚ
  deriving DecidableEq

/-- `pd.merge(dataframe_ventas, dataframe_sow, on="MES", how="left")`
followed by the final `fillna(0)`: each sales row is extended with the
values of the SOW row sharing its month, or with zeros when none matches
(SOW month keys are unique upstream, one period row per month). -/
def mergeVentasSow (vrows : List VentasRow) (srows : List (Int × List ℚ))
    (sowWidth : Nat) : List (Int × List ℚ) :=
  vrows.map (fun v => (v.fecha,
    v.values ++ ((((srows.filter (fun s => s.1 == v.mes)).head?).map (·.2)).getD
      (List.replicate sowWidth 0))))

/-- One `pd.merge(..., on="FECHA", how="left")` step plus the final
`fillna(0)`: unmatched dates contribute a zero block. -/
def joinOnFecha (left right : List (Int × List ℚ)) (w : Nat) :
    List (Int × List ℚ) :=
  left.map (fun l => (l.1,
    l.2 ++ ((((right.filter (fun r => r.1 == l.1)).head?).map (·.2)).getD
      (List.replicate w 0))))

/-- The full merge chain of `get_prediction_data`, in source order. -/
def mergedData (ventas : List VentasRow) (sow : List (Int × List ℚ))
    (expo mp precios : List (Int × List ℚ)) (ws we wm wp : Nat) :
    List (Int × List ℚ) :=
  joinOnFecha (joinOnFecha (joinOnFecha (mergeVentasSow ventas sow ws) expo we)
    mp wm) precios wp

/-- Outcome of `get_prediction_data`: the merged table with HTTP status
200, or an error message with status 500 and no table. -/
inductive PredictionOutcome where
  | ok (table : List (Int × List ℚ)) (status : Nat)
  | err (msg : String) (status : Nat)
  deriving DecidableEq

/-- The `try`/`except` body of `get_prediction_data`: the five per-source
fetches run in sequence, each able to raise (`Except.error`); any failure
aborts the whole request and collapses to the generic message with status
500, so no partial table is ever produced. -/
def getPredictionData (mpF sowF preciosF expoF : Except String (List (Int × List ℚ)))
    (ventasF : Except String (List VentasRow)) (ws we wm wp : Nat) :
    PredictionOutcome :=
  match mpF, sowF, preciosF, expoF, ventasF with
  | .ok mp, .ok sow, .ok precios, .ok expo, .ok ventas =>
      .ok (mergedData ventas sow expo mp precios ws we wm wp) 200
  | _, _, _, _, _ => .err "Something went wrong" 500

/-- C9: if any of the five per-source fetches inside the prediction-data
assembly raises, `get_prediction_data` returns the generic message
"Something went wrong" with status 500, and no partial or degraded feature
table is returned. -/
theorem C9_all_or_nothing (mpF sowF preciosF expoF : Except String (List (Int × List ℚ)))
    (ventasF : Except String (List VentasRow)) (ws we wm wp : Nat)
    (h : (∃ e, mpF = .error e) ∨ (∃ e, sowF = .error e) ∨ (∃ e, preciosF = .error e)
      ∨ (∃ e, expoF = .error e) ∨ (∃ e, ventasF = .error e)) :
    getPredictionData mpF sowF preciosF expoF ventasF ws we wm wp
      = .err "Something went wrong" 500 := by
  cases mpF <;> cases sowF <;> cases preciosF <;> cases expoF <;> cases ventasF <;>
    simp_all [getPredictionData]

/-- C9 witness: with the SOW fetch failing and all other fetches
succeeding, the assembly returns the generic 500 failure. -/
theorem C9_all_or_nothing_witness :
    getPredictionData (.ok []) (.error "db down") (.ok []) (.ok []) (.ok [])
      0 0 0 0 = .err "Something went wrong" 500 :=
  C9_all_or_nothing (.ok []) (.error "db down") (.ok []) (.ok []) (.ok [])
    0 0 0 0 (Or.inr (Or.inl ⟨"db down", rfl⟩))

/-- C10: when the 4-week lookback window starts and ends in different
calendar years, the SOW query's filter (which requires the period year to
equal both boundary years at once) matches no records, the SOW frame has
no data rows, and the ventas-SOW merge fills every SOW feature cell of the
merged table with 0. -/
theorem C10_cross_year_window (date : Int)
    (h : yearOfDay (fechaDesde date) ≠ yearOfDay (fechaHasta date)) :
    (∀ records : List SowRecord,
        sowRowsFor records (fechaDesde date) (fechaHasta date) = [])
    ∧ (∀ records : List SowRecord,
        (getSowForPrediction records (fechaDesde date) (fechaHasta date)).rows = [])
    ∧ (∀ (vrows : List VentasRow) (ws : Nat),
        mergeVentasSow vrows [] ws
          = vrows.map (fun v => (v.fecha, v.values ++ List.replicate ws 0))) := by
  have hfilter : ∀ records : List SowRecord,
      sowRowsFor records (fechaDesde date) (fechaHasta date) = [] := by
    intro records
    apply List.filter_eq_nil_iff.mpr
    intro r _
    simp only [sowFilter, Bool.and_eq_true, beq_iff_eq, decide_eq_true_eq]
    intro hcon
    exact absurd (hcon.1.1.symm.trans hcon.2.1) h
  refine ⟨hfilter, ?_, ?_⟩
  · intro records
    simp [getSowForPrediction, pivotReindexed, Frame.reindexCols, Frame.fillna0,
      pivotTable, sowCells, hfilter records, sowGroupby, uniqueKeys, uniqueKeysAux]
  · intro vrows ws
    simp [mergeVentasSow]

/-- C10 witness: for the target date 2024-01-03 the window runs from
2023-12-06 to 2024-01-02 across a year boundary, so a December-2023 SOW
record is filtered out, the SOW frame is empty, and a sample merged row
gets zeros in its SOW columns. -/
theorem C10_cross_year_window_witness :
    sowRowsFor [⟨daysFromCivil 2023 12 15, "2100001", 1, 1, 1⟩]
      (fechaDesde (daysFromCivil 2024 1 3)) (fechaHasta (daysFromCivil 2024 1 3)) = []
    ∧ (getSowForPrediction [⟨daysFromCivil 2023 12 15, "2100001", 1, 1, 1⟩]
        (fechaDesde (daysFromCivil 2024 1 3)) (fechaHasta (daysFromCivil 2024 1 3))).rows = []
    ∧ mergeVentasSow [⟨0, 1, [5]⟩] [] 2 = [(0, [5, 0, 0])] := by
  have h := C10_cross_year_window (daysFromCivil 2024 1 3) (by decide)
  refine ⟨h.1 _, h.2.1 _, ?_⟩
  have h3 := h.2.2 [⟨0, 1, [5]⟩] 2
  simpa using h3

/-! ## Shrimp price backward-fill (`get_precios_camaron_for_prediction`)

The SQL query unions a single anchor row (the most recent record at or
before the window start) with the in-window records; the prices are scaled
by 2000, the frame is as-of merged backward onto the full calendar day
range, and `ffill` carries values forward. -/

/-- One row of `precio_camaron`: a date and its list of per-size-bracket
prices (six brackets in the source, kept generic here). -/
structure PrecioRecord where
  fecha : Int
  precios : List ℚ
  deriving DecidableEq

/-- The anchor sub-query `ORDER BY fecha DESC LIMIT 1` over records dated
at or before `d`; among equal dates the later record wins, matching the
last-wins behaviour of the downstream backward as-of merge. -/
def latestLE (records : List PrecioRecord) (d : Int) : Option PrecioRecord :=
  (records.filter (fun r => r.fecha ≤ d)).foldl
    (fun acc r => match acc with
      | none => some r
      | some a => if a.fecha ≤ r.fecha then some r else some a) none

/-- The `UNION ALL` of the anchor row and the in-window rows, in query
order. -/
def combinedPrecios (records : List PrecioRecord) (desde hasta : Int) :
    List PrecioRecord :=
  (latestLE records desde).toList
    ++ records.filter (fun r => desde ≤ r.fecha && r.fecha ≤ hasta)

/-- The `* 2000` unit scaling applied to every price column. -/
def scalePrecio (r : PrecioRecord) : PrecioRecord :=
  ⟨r.fecha, r.precios.map (· * 2000)⟩

/-- `pd.merge_asof(..., on="FECHA", direction="backward")` against a
sorted right frame: day `d` receives the value of the last right row dated
at or before `d`, or null when there is none. -/
def asofBackward (rows : List PrecioRecord) (d : Int) : Option (List ℚ) :=
  ((rows.filter (fun r => r.fecha ≤ d)).getLast?).map (·.precios)

/-- The calendar days of `pd.date_range(start=desde, end=hasta)`. -/
def dateRange (desde hasta : Int) : List Int :=
  (List.range ((hasta - desde).toNat + 1)).map (fun i => desde + i)

/-- Pandas `ffill` over the day sequence, carrying the previous non-null
value forward. -/
def ffillFrom {α : Type} (prev : Option α) :
    List (Int × Option α) → List (Int × Option α)
  | [] => []
  | (d, v) :: rest =>
    match v with
    | some x => (d, some x) :: ffillFrom (some x) rest
    | none => (d, prev) :: ffillFrom prev rest

/-- The daily shrimp-price table of `get_precios_camaron_for_prediction`:
anchor union in-window rows, scaled, as-of merged backward onto the full
day range, then forward-filled. -/
def getPreciosCamaronForPrediction (records : List PrecioRecord)
    (desde hasta : Int) : List (Int × Option (List ℚ)) :=
  ffillFrom none ((dateRange desde hasta).map (fun d =>
    (d, asofBackward ((combinedPrecios records desde hasta).map scalePrecio) d)))

theorem lookup_map_self (ds : List Int) (f : Int → Option (List ℚ)) (d : Int) :
    d ∈ ds → (ds.map (fun x => (x, f x))).lookup d = some (f d) := by
  induction ds with
  | nil => intro hd; cases hd
  | cons x xs ih =>
    intro hd
    by_cases hdx : d = x
    · subst hdx; simp [List.lookup]
    · have hb : (d == x) = false := beq_eq_false_iff_ne.mpr hdx
      rcases List.mem_cons.mp hd with rfl | hd2
      · exact absurd rfl hdx
      · simp only [List.map_cons, List.lookup, hb]
        exact ih hd2

theorem lookup_ffillFrom {α : Type} (l : List (Int × Option α)) :
    ∀ (prev : Option α) (d : Int) (v : α), l.lookup d = some (some v) →
      (ffillFrom prev l).lookup d = some (some v) := by
  induction l with
  | nil => intro prev d v h; cases h
  | cons p rest ih =>
    intro prev d v h
    obtain ⟨d₀, v₀⟩ := p
    by_cases hdd : d = d₀
    · subst hdd
      simp only [List.lookup, beq_self_eq_true] at h
      have hv : v₀ = some v := by simpa using h
      subst hv
      simp [ffillFrom, List.lookup]
    · have hb : (d == d₀) = false := beq_eq_false_iff_ne.mpr hdd
      simp only [List.lookup, hb] at h
      cases v₀ with
      | some x =>
        simp only [ffillFrom, List.lookup, hb]
        exact ih (some x) d v h
      | none =>
        simp only [ffillFrom, List.lookup, hb]
        exact ih prev d v h

theorem mem_of_getLast_eq {α : Type} {l : List α} {x : α}
    (h : l.getLast? = some x) : x ∈ l := by
  obtain ⟨ys, hys⟩ := List.getLast?_eq_some_iff.mp h
  rw [hys]
  exact List.mem_append.mpr (Or.inr (List.mem_singleton_self x))

theorem pairwise_getLast_le : ∀ (l : List PrecioRecord),
    l.Pairwise (fun a b => a.fecha ≤ b.fecha) → ∀ x : PrecioRecord,
    l.getLast? = some x → ∀ y ∈ l, y.fecha ≤ x.fecha := by
  intro l
  induction l with
  | nil => intro _ x hx; cases hx
  | cons a rest ih =>
    intro hs x hx y hy
    cases rest with
    | nil =>
      have hax : a = x := by simpa using hx
      have hya : y = a := by simpa using hy
      exact le_of_eq (by rw [hya, hax])
    | cons b t =>
      rw [List.getLast?_cons_cons] at hx
      have hxt : x ∈ b :: t := mem_of_getLast_eq hx
      rcases List.mem_cons.mp hy with rfl | hy2
      · exact (List.pairwise_cons.mp hs).1 x hxt
      · exact ih (List.pairwise_cons.mp hs).2 x hx y hy2

/-- C5: each calendar day of the window receives the price of the most
recent (anchor-or-in-window) record dated at or before it, and in the
two-record scenario the first record's prices repeat up to the day before
the second record, whose prices then repeat to the window end. -/
theorem C5_backward_fill :
    (∀ (records : List PrecioRecord) (desde hasta d : Int),
      ((combinedPrecios records desde hasta).map scalePrecio).Pairwise
        (fun a b => a.fecha ≤ b.fecha) →
      d ∈ dateRange desde hasta →
      (∃ r ∈ (combinedPrecios records desde hasta).map scalePrecio, r.fecha ≤ d) →
      ∃ r ∈ (combinedPrecios records desde hasta).map scalePrecio,
        r.fecha ≤ d
        ∧ (∀ s ∈ (combinedPrecios records desde hasta).map scalePrecio,
            s.fecha ≤ d → s.fecha ≤ r.fecha)
        ∧ (getPreciosCamaronForPrediction records desde hasta).lookup d
            = some (some r.precios))
    ∧ (∀ p₁ p₁₀ : ℚ, getPreciosCamaronForPrediction [⟨0, [p₁]⟩, ⟨9, [p₁₀]⟩] 0 14 =
        [(0, some [p₁ * 2000]), (1, some [p₁ * 2000]), (2, some [p₁ * 2000]),
         (3, some [p₁ * 2000]), (4, some [p₁ * 2000]), (5, some [p₁ * 2000]),
         (6, some [p₁ * 2000]), (7, some [p₁ * 2000]), (8, some [p₁ * 2000]),
         (9, some [p₁₀ * 2000]), (10, some [p₁₀ * 2000]), (11, some [p₁₀ * 2000]),
         (12, some [p₁₀ * 2000]), (13, some [p₁₀ * 2000]), (14, some [p₁₀ * 2000])]) := by
  constructor
  · intro records desde hasta d hsorted hd hex
    obtain ⟨r₀, hr₀, hr₀d⟩ := hex
    have hne : ((combinedPrecios records desde hasta).map scalePrecio).filter
        (fun r => r.fecha ≤ d) ≠ [] := by
      intro hnil
      have : r₀ ∈ ((combinedPrecios records desde hasta).map scalePrecio).filter
          (fun r => r.fecha ≤ d) := List.mem_filter.mpr ⟨hr₀, by simpa using hr₀d⟩
      rw [hnil] at this
      cases this
    obtain ⟨x, hx⟩ : ∃ x, (((combinedPrecios records desde hasta).map scalePrecio).filter
        (fun r => r.fecha ≤ d)).getLast? = some x := by
      cases hlast : (((combinedPrecios records desde hasta).map scalePrecio).filter
          (fun r => r.fecha ≤ d)).getLast? with
      | none => exact absurd (List.getLast?_eq_none_iff.mp hlast) hne
      | some x => exact ⟨x, rfl⟩
    have hxmemf := mem_of_getLast_eq hx
    have hxmem : x ∈ (combinedPrecios records desde hasta).map scalePrecio :=
      List.mem_of_mem_filter hxmemf
    have hxd : x.fecha ≤ d := by
      have := (List.mem_filter.mp hxmemf).2
      simpa using this
    refine ⟨x, hxmem, hxd, ?_, ?_⟩
    · intro s hs hsd
      exact pairwise_getLast_le _ (hsorted.filter _) x hx s
        (List.mem_filter.mpr ⟨hs, by simpa using hsd⟩)
    · have hlook := lookup_map_self (dateRange desde hasta)
        (fun d => asofBackward ((combinedPrecios records desde hasta).map scalePrecio) d)
        d hd
      have hasof : asofBackward ((combinedPrecios records desde hasta).map scalePrecio) d
          = some x.precios := by
        unfold asofBackward
        rw [hx]
        rfl
      unfold getPreciosCamaronForPrediction
      exact lookup_ffillFrom _ none d x.precios
        (by rw [hlook]; exact congrArg some hasof)
  · intro p₁ p₁₀
    rfl

/-- C5 witness: in the two-record scenario the general backward-fill rule
instantiated at day 4 produces the (scaled) day-0 price. -/
theorem C5_backward_fill_witness :
    ∃ r ∈ (combinedPrecios [⟨0, [3]⟩, ⟨9, [7]⟩] 0 14).map scalePrecio,
      r.fecha ≤ 4
      ∧ (∀ s ∈ (combinedPrecios [⟨0, [3]⟩, ⟨9, [7]⟩] 0 14).map scalePrecio,
          s.fecha ≤ 4 → s.fecha ≤ r.fecha)
      ∧ (getPreciosCamaronForPrediction [⟨0, [3]⟩, ⟨9, [7]⟩] 0 14).lookup 4
          = some (some r.precios) :=
  C5_backward_fill.1 [⟨0, [3]⟩, ⟨9, [7]⟩] 0 14 4 (by decide) (by decide)
    ⟨scalePrecio ⟨0, [3]⟩, List.mem_map.mpr ⟨⟨0, [3]⟩, by decide, rfl⟩, by decide⟩

/-! ## Weekly aggregation and flattening (`predict`, 1_Prediction.py)

`predict` resamples the merged daily table into weekly buckets
(`resample("W")`, each bucket labelled by its ending Sunday), keeps the
last 4 buckets (`tail(4)`), and flattens them into one row whose column
names are `f"W{week}_{col}"`, where `week` is the ISO calendar week number
of the bucket label (`input_data.index.isocalendar().week`). -/

/-- Smallest date of a daily series (0 for the empty one, unused). -/
def minDate (rows : List (Int × ℚ)) : Int :=
  match rows with
  | [] => 0
  | r :: rs => rs.foldl (fun a b => min a b.1) r.1

/-- Largest date of a daily series (0 for the empty one, unused). -/
def maxDate (rows : List (Int × ℚ)) : Int :=
  match rows with
  | [] => 0
  | r :: rs => rs.foldl (fun a b => max a b.1) r.1

/-- The contiguous weekly bucket labels of `resample("W")`: the ending
Sundays from the first record's week to the last record's week. -/
def weekLabels (rows : List (Int × ℚ)) : List Int :=
  match rows with
  | [] => []
  | _ :: _ =>
    (List.range (((weekEnd (maxDate rows) - weekEnd (minDate rows)) / 7).toNat + 1)).map
      (fun i => weekEnd (minDate rows) + 7 * i)

/-- One column's weekly resampling: each bucket aggregates the values of
the days falling in its week. -/
def resampleWeekly (rows : List (Int × ℚ)) (agg : List ℚ → ℚ) : List (Int × ℚ) :=
  (weekLabels rows).map (fun w =>
    (w, agg ((rows.filter (fun r => weekEnd r.1 == w)).map (·.2))))

/-- Pandas `tail(n)`: the last `n` rows. -/
def lastN {α : Type} (n : Nat) (l : List α) : List α := l.drop (l.length - n)

/-- The input flattening of `predict` for one column `col`: the last 4
weekly buckets in index order, each contributing the flattened column
`f"W{isoWeek}_{col}"` with its aggregated value. -/
def predictInputFlatten (rows : List (Int × ℚ)) (col : String)
    (agg : List ℚ → ℚ) : List (String × ℚ) :=
  (lastN 4 (resampleWeekly rows agg)).map (fun p =>
    ("W" ++ toString (isoWeek p.1) ++ "_" ++ col, p.2))

/-- C2 counterexample: for target date 2024-03-04 (lookback days
2024-02-05..2024-03-03) the flattened columns are named by ISO week
numbers, `W6_X..W9_X`, not by the offset tokens `W1_X..W4_X` the claim
states. -/
theorem C2_counterexample :
    ((predictInputFlatten
        [(daysFromCivil 2024 2 5, 60), (daysFromCivil 2024 2 7, 40),
         (daysFromCivil 2024 2 12, 120), (daysFromCivil 2024 2 19, 90),
         (daysFromCivil 2024 2 26, 150)] "X" sumList).map Prod.fst)
      = ["W6_X", "W7_X", "W8_X", "W9_X"]
    ∧ ["W6_X", "W7_X", "W8_X", "W9_X"] ≠ ["W1_X", "W2_X", "W3_X", "W4_X"] := by
  constructor
  · decide
  · decide

theorem list_pair_ext (l₁ : List (String × ℚ)) : ∀ (l₂ : List (String × ℚ)),
    l₁.map Prod.fst = l₂.map Prod.fst → l₁.map Prod.snd = l₂.map Prod.snd →
    l₁ = l₂ := by
  induction l₁ with
  | nil =>
    intro l₂ hf _
    cases l₂ with
    | nil => rfl
    | cons y ys => cases hf
  | cons x xs ih =>
    intro l₂ hf hs
    cases l₂ with
    | nil => cases hf
    | cons y ys =>
      simp only [List.map_cons, List.cons.injEq] at hf hs
      exact congrArg₂ (· :: ·) (Prod.ext hf.1 hs.1) (ih ys hf.2 hs.2)

theorem fst_predictInputFlatten (rows : List (Int × ℚ)) (col : String)
    (agg : List ℚ → ℚ) :
    (predictInputFlatten rows col agg).map Prod.fst
      = (lastN 4 (weekLabels rows)).map
          (fun w => "W" ++ toString (isoWeek w) ++ "_" ++ col) := by
  simp only [predictInputFlatten, resampleWeekly, lastN, List.map_map,
    List.length_map]
  rw [← List.map_drop]
  simp [List.map_map, Function.comp_def]

/-- C2 (amended): the Weekly Aggregator keeps the most recent 4 weekly
buckets before the target date and flattens them oldest-first, but a
column's week prefix is the ISO calendar week number of that bucket, not
an offset token W1..W4: for target 2024-03-04 (lookback days
2024-02-05..2024-03-03, day numbers 19758..19785) with weekly tonnage sums
[100, 120, 90, 150] (week 6 split as 60 + 40), the output row is
`W6_X=100, W7_X=120, W8_X=90, W9_X=150`, in that order. -/
theorem C2_weekly_flatten (a b c d e : ℚ) :
    daysFromCivil 2024 2 5 = 19758 ∧ daysFromCivil 2024 2 7 = 19760
    ∧ daysFromCivil 2024 2 12 = 19765 ∧ daysFromCivil 2024 2 19 = 19772
    ∧ daysFromCivil 2024 2 26 = 19779
    ∧ predictInputFlatten
        [((19758 : Int), a), (19760, b), (19765, c), (19772, d), (19779, e)]
        "X" sumList
      = [("W6_X", sumList [a, b]), ("W7_X", sumList [c]),
         ("W8_X", sumList [d]), ("W9_X", sumList [e])]
    ∧ sumList [(60 : ℚ), 40] = 100 ∧ sumList [(120 : ℚ)] = 120
    ∧ sumList [(90 : ℚ)] = 90 ∧ sumList [(150 : ℚ)] = 150 := by
  have hlabels : weekLabels
      [((19758 : Int), a), (19760, b), (19765, c), (19772, d), (19779, e)]
      = [(19764 : Int), 19771, 19778, 19785] := rfl
  have h1 : (predictInputFlatten
      [((19758 : Int), a), (19760, b), (19765, c), (19772, d), (19779, e)] "X"
      sumList).map Prod.fst = ["W6_X", "W7_X", "W8_X", "W9_X"] := by
    rw [fst_predictInputFlatten, hlabels]
    decide
  have h2 : (predictInputFlatten
      [((19758 : Int), a), (19760, b), (19765, c), (19772, d), (19779, e)] "X"
      sumList).map Prod.snd
      = [sumList [a, b], sumList [c], sumList [d], sumList [e]] := rfl
  exact ⟨by decide, by decide, by decide, by decide, by decide,
    list_pair_ext _ _ h1 h2, by norm_num [sumList], by norm_num [sumList],
    by norm_num [sumList], by norm_num [sumList]⟩

/-! ## Min-max scaling (`predict`, 1_Prediction.py)

`predict` fits a fresh `MinMaxScaler` on the single flattened 4-week input
row, transforms it to [0, 1], and inverse-transforms the model output with
a second scaler fitted on the flattened output row.  With feature range
[0, 1], sklearn uses per column `j`: `scale_ = 1 / (dataMax - dataMin)`
(a zero range is replaced by 1), `min_ = -dataMin * scale_`, transform
`x ↦ x * scale_ + min_` and inverse `x ↦ (x - min_) / scale_`. -/

/-- Index-aware map, aligning each row entry with its column index. -/
def mapWithIndex {α β : Type} (f : Nat → α → β) : Nat → List α → List β
  | _, [] => []
  | j, x :: xs => f j x :: mapWithIndex f (j + 1) xs

/-- Column `j` of the fit matrix (one entry per fitted sample). -/
def colVals (X : List (List ℚ)) (j : Nat) : List ℚ :=
  X.map (fun row => row.getD j 0)

/-- Minimum of a list of rationals (0 for the empty list, unused). -/
def listMin : List ℚ → ℚ
  | [] => 0
  | x :: xs => xs.foldl min x

/-- Maximum of a list of rationals (0 for the empty list, unused). -/
def listMax : List ℚ → ℚ
  | [] => 0
  | x :: xs => xs.foldl max x

/-- sklearn `_handle_zeros_in_scale`: a zero per-column range becomes 1. -/
def handleZero (r : ℚ) : ℚ := if r = 0 then 1 else r

/-- The fitted `scale_` of column `j`. -/
def mmScale (X : List (List ℚ)) (j : Nat) : ℚ :=
  1 / handleZero (listMax (colVals X j) - listMin (colVals X j))

/-- The fitted `min_` of column `j`. -/
def mmMin (X : List (List ℚ)) (j : Nat) : ℚ :=
  - listMin (colVals X j) * mmScale X j

/-- `MinMaxScaler.transform` of one row, against the fit matrix `X`. -/
def mmTransform (X : List (List ℚ)) (row : List ℚ) : List ℚ :=
  mapWithIndex (fun j x => x * mmScale X j + mmMin X j) 0 row

/-- `MinMaxScaler.inverse_transform` of one row. -/
def mmInverse (X : List (List ℚ)) (row : List ℚ) : List ℚ :=
  mapWithIndex (fun j x => (x - mmMin X j) / mmScale X j) 0 row

theorem mapWithIndex_comp {α β γ : Type} (f : Nat → β → γ) (g : Nat → α → β)
    (l : List α) : ∀ j, mapWithIndex f j (mapWithIndex g j l)
      = mapWithIndex (fun i x => f i (g i x)) j l := by
  induction l with
  | nil => intro j; rfl
  | cons x xs ih => intro j; simp only [mapWithIndex, ih]

theorem mapWithIndex_id {α : Type} (f : Nat → α → α) (l : List α)
    (hf : ∀ j x, f j x = x) : ∀ j, mapWithIndex f j l = l := by
  induction l with
  | nil => intro j; rfl
  | cons x xs ih => intro j; simp only [mapWithIndex, hf, ih]

theorem mmScale_ne_zero (X : List (List ℚ)) (j : Nat) : mmScale X j ≠ 0 := by
  unfold mmScale handleZero
  by_cases h : listMax (colVals X j) - listMin (colVals X j) = 0
  · simp [h]
  · simp [h]

theorem mmInverse_mmTransform (X : List (List ℚ)) (row : List ℚ) :
    mmInverse X (mmTransform X row) = row := by
  unfold mmInverse mmTransform
  rw [mapWithIndex_comp]
  apply mapWithIndex_id
  intro j x
  have hs := mmScale_ne_zero X j
  field_simp

theorem zip_self_fst_eq_snd {α : Type} (l : List α) :
    ∀ p ∈ l.zip l, p.1 = p.2 := by
  induction l with
  | nil => intro p hp; cases hp
  | cons x xs ih =>
    intro p hp
    rcases List.mem_cons.mp hp with rfl | hp2
    · rfl
    · exact ih p hp2

/-- C4: fitting the request-local min-max scaler on a single 4-week
flattened row, transforming it, and inverse-transforming the unmodified
scaled copy reproduces the original row exactly — in particular within the
claimed 1e-6 tolerance. -/
theorem C4_scale_roundtrip (row : List ℚ) :
    mmInverse [row] (mmTransform [row] row) = row
    ∧ ∀ p ∈ (mmInverse [row] (mmTransform [row] row)).zip row,
        |p.1 - p.2| ≤ 1 / 1000000 := by
  have h := mmInverse_mmTransform [row] row
  refine ⟨h, ?_⟩
  intro p hp
  rw [h] at hp
  rw [zip_self_fst_eq_snd row p hp]
  simp

/-- C4 witness: the round trip on the concrete row `[3, 5]` returns
`[3, 5]`, and the pointwise deviation is within 1e-6. -/
theorem C4_scale_roundtrip_witness :
    mmInverse [[(3 : ℚ), 5]] (mmTransform [[(3 : ℚ), 5]] [3, 5]) = [3, 5]
    ∧ |(3 : ℚ) - 3| ≤ 1 / 1000000 := by
  have h := C4_scale_roundtrip [(3 : ℚ), 5]
  refine ⟨h.1, ?_⟩
  exact h.2 (3, 3) (by rw [h.1]; decide)

/-! ## Result disaggregation (`process_display_data` and helpers)

`process_display_data` slices the flat inverse-scaled output vector into 4
contiguous 70-length segments (`model_prediction[0][0:70]`, `[70:140]`,
`[140:210]`, `[210:280]`), one per forecast week, and labels each with
`columns_out` (the 70 canonical output columns). -/

/-- The fixed output-week slicing of `process_display_data`. -/
def weekSlices (v : List ℚ) : List (List ℚ) :=
  [v.take 70, (v.drop 70).take 70, (v.drop 140).take 70, (v.drop 210).take 70]

/-- C7: for a model output vector of length 4 × 70 (70 = count of
canonical output columns), the slicing produces 4 equal-length contiguous
segments in order, week 1 first, and re-flattening them in week order
reproduces the original vector exactly. -/
theorem C7_flatten_unflatten (v : List ℚ) (h : v.length = 280) :
    (weekSlices v).flatten = v
    ∧ (weekSlices v).head? = some (v.take 70)
    ∧ ∀ w ∈ weekSlices v, w.length = 70 := by
  refine ⟨?_, rfl, ?_⟩
  · simp only [weekSlices, List.flatten_cons, List.flatten_nil, List.append_nil]
    have e210 : (v.drop 210).take 70 = v.drop 210 :=
      List.take_of_length_le (by simp [h])
    have s3 : (v.drop 140).take 70 ++ v.drop 210 = v.drop 140 := by
      have : v.drop 210 = (v.drop 140).drop 70 := by
        rw [List.drop_drop]
      rw [this, List.take_append_drop]
    have s2 : (v.drop 70).take 70 ++ v.drop 140 = v.drop 70 := by
      have : v.drop 140 = (v.drop 70).drop 70 := by
        rw [List.drop_drop]
      rw [this, List.take_append_drop]
    rw [e210, s3, s2, List.take_append_drop]
  · intro w hw
    simp only [weekSlices, List.mem_cons, List.not_mem_nil, or_false] at hw
    rcases hw with rfl | rfl | rfl | rfl <;>
      simp [List.length_take, List.length_drop, h]

/-- C7 witness: the identity vector of length 280 splits into 4 segments
of length 70 and re-flattens to itself. -/
theorem C7_flatten_unflatten_witness :
    (weekSlices (List.replicate 280 (0 : ℚ))).flatten = List.replicate 280 (0 : ℚ)
    ∧ ∀ w ∈ weekSlices (List.replicate 280 (0 : ℚ)), w.length = 70 := by
  have h := C7_flatten_unflatten (List.replicate 280 (0 : ℚ))
    (List.length_replicate 280 0)
  exact ⟨h.1, h.2.2⟩

/-! ## Week pivot and client labels (`build_week_dataframes`, `get_clients`)

`build_week_dataframes` melts a 1×70 week frame, extracts the client slot
(regex `(\d+)$`) and the product-stage name (regex `^(.*?)_\d+$`) from
each column name, pivots with `aggfunc="first"`, and replaces slot numbers
with client display names through the positional dictionary
`{i+1: nombre for i, nombre in enumerate(clientes)}`. -/

/-- `get_clients`: `[row[2] for row in cursor.fetchall()]` — the third
column of each `cliente` row, in result order. -/
def getClients (rows : List (List String)) : List String :=
  rows.map (fun r => r.getD 2 "")

/-- Decimal value of a digit character list. -/
def digitsToNat (cs : List Char) : Nat :=
  cs.foldl (fun n c => n * 10 + (c.toNat - 48)) 0

/-- The client slot extracted from a column name: the value of its
trailing digits (the regex `(\d+)$`), 0 when there are none. -/
def extractSlot (s : String) : Nat :=
  digitsToNat ((s.toList.reverse.takeWhile Char.isDigit).reverse)

/-- The column name with its `_<slot>` suffix removed (the capture of the
regex `^(.*?)_\d+$`). -/
def stripSlot (s : String) : String :=
  String.mk (((s.toList.reverse.dropWhile Char.isDigit).drop 1).reverse)

/-- The positional slot-to-name relabelling `{i+1: nombre}` applied via
`.replace`: slot `n` becomes the `n`-th client name; a slot outside the
dictionary keeps its number. -/
def clientLabel (clientes : List String) (slot : Nat) : String :=
  clientes.getD (slot - 1) (toString slot)

/-- A pivoted week frame: product-stage columns, one row per client label,
values aligned positionally with the columns. -/
structure PivotFrame where
  cols : List String
  rows : List (String × List ℚ)
  deriving DecidableEq

/-- The pivot of `build_week_dataframes`: melt the week row, group by
extracted client slot and product-stage, take the first value per cell,
and relabel the slots with client names. -/
def buildWeekDataframes (clientes : List String) (cells : List (String × ℚ)) :
    PivotFrame :=
  { cols := uniqueKeys (cells.map (fun c => stripSlot c.1))
    rows := (uniqueKeys (cells.map (fun c => extractSlot c.1))).map (fun sl =>
      (clientLabel clientes sl,
        (uniqueKeys (cells.map (fun c => stripSlot c.1))).map (fun e =>
          ((cells.filter (fun c => extractSlot c.1 == sl && stripSlot c.1 == e)).map
            (·.2)).headD 0))) }

/-- C8: the slot-to-client-name mapping is positional over the list
returned by the client query — slot `n` is labelled with the `n`-th
client's display name — and in the `["A", "B", "C"]` scenario the pivot
rows carry exactly the labels "A", "B", "C" with their slots' values. -/
theorem C8_positional_client_labels :
    (∀ (cs : List String) (n : Nat), 1 ≤ n → n ≤ cs.length →
      ∃ hlt : n - 1 < cs.length, clientLabel cs n = cs.get ⟨n - 1, hlt⟩)
    ∧ (getClients [["1", "C1", "A"], ["2", "C2", "B"], ["3", "C3", "C"]]
        = ["A", "B", "C"])
    ∧ (∀ v₁ v₂ v₃ : ℚ,
        (buildWeekDataframes ["A", "B", "C"]
          [("FAM_SEEDING_1", v₁), ("FAM_SEEDING_2", v₂), ("FAM_SEEDING_3", v₃)]).rows
          = [("A", [v₁]), ("B", [v₂]), ("C", [v₃])]
        ∧ (buildWeekDataframes ["A", "B", "C"]
            [("FAM_SEEDING_1", v₁), ("FAM_SEEDING_2", v₂), ("FAM_SEEDING_3", v₃)]).cols
          = ["FAM_SEEDING"]) := by
  refine ⟨?_, rfl, ?_⟩
  · intro cs n h1 h2
    have hlt : n - 1 < cs.length := by omega
    refine ⟨hlt, ?_⟩
    unfold clientLabel
    exact List.getD_eq_get cs _ hlt
  · intro v₁ v₂ v₃
    exact ⟨rfl, rfl⟩

/-- C8 witness: the positional rule instantiated at slot 2 of
`["A", "B", "C"]` yields "B", and the scenario pivot is as claimed for
concrete values. -/
theorem C8_positional_client_labels_witness :
    (∃ hlt : 1 < (["A", "B", "C"] : List String).length,
      clientLabel ["A", "B", "C"] 2 = (["A", "B", "C"] : List String).get ⟨1, hlt⟩)
    ∧ (buildWeekDataframes ["A", "B", "C"]
        [("FAM_SEEDING_1", 7), ("FAM_SEEDING_2", 8), ("FAM_SEEDING_3", 9)]).rows
        = [("A", [7]), ("B", [8]), ("C", [9])] := by
  refine ⟨C8_positional_client_labels.1 ["A", "B", "C"] 2 (by norm_num) (by norm_num), ?_⟩
  exact (C8_positional_client_labels.2.2 7 8 9).1

/-! ## Weekly totals and line-group subtotals (`build_weekly_summary`,
`build_line_group_dataframes`)

`build_weekly_summary` receives the raw 1×70 week frames and takes
`w.sum(axis=1).values[0]`, the row sum over all output columns.
`build_line_group_dataframes` receives the PIVOTED week frames (one row
per client), selects the columns whose name contains the tag, and takes
`week_df[group_columns].sum(axis=1).iloc[0]` — the tag sum of the FIRST
row only. -/

/-- Character-list version of Python's substring test `tag in col`. -/
def leadMatch : List Char → List Char → Bool
  | [], _ => true
  | _ :: _, [] => false
  | a :: as, b :: bs => a == b && leadMatch as bs

/-- Substring search over character lists. -/
def hasSublist (pat : List Char) : List Char → Bool
  | [] => pat.isEmpty
  | c :: rest => leadMatch pat (c :: rest) || hasSublist pat rest

/-- Python `tag in col` on strings. -/
def strContains (s pat : String) : Bool := hasSublist pat.toList s.toList

/-- The values of a row under the columns whose name contains the tag
(`group_columns` selection). -/
def selectedVals (cols : List String) (vals : List ℚ) (tag : String) : List ℚ :=
  ((cols.zip vals).filter (fun p => strContains p.1 tag)).map (·.2)

/-- The per-week tag total computed by `build_line_group_dataframes`:
`week_df[group_columns].sum(axis=1).iloc[0]` — the sum over the tag
columns of the FIRST row only. -/
def lineGroupTotal (w : PivotFrame) (tag : String) : ℚ :=
  match w.rows with
  | [] => 0
  | r :: _ => sumList (selectedVals w.cols r.2 tag)

/-- The four per-week tag totals of `build_line_group_dataframes`. -/
def buildLineGroupTotals (ws : List PivotFrame) (tag : String) : List ℚ :=
  ws.map (fun w => lineGroupTotal w tag)

/-- Modelled from the spec: the claimed tag subtotal — the sum over every
client × family-line cell whose column name carries the tag (the function
docstring's "total production for a given product-stage"). -/
def specLineGroupTotal (w : PivotFrame) (tag : String) : ℚ :=
  sumList (w.rows.flatMap (fun r => selectedVals w.cols r.2 tag))

/-- The weekly totals of `build_weekly_summary`: the row sum over all
columns of each raw 1-row week frame. -/
def buildWeeklySummaryTotals (w1 w2 w3 w4 : List ℚ) : List ℚ :=
  [sumList w1, sumList w2, sumList w3, sumList w4]

/-- C6 evaluation at the failing input: on a pivoted week frame with two
client rows (SEEDING values 10 and 20), the code's tag subtotal is 10 —
the first client's row only — while the claimed subtotal over every
client × family-line cell carrying the tag is 30. -/
theorem C6_line_group_first_row_only :
    lineGroupTotal ⟨["FAM_SEEDING", "FAM_VOLUMA"], [("A", [10, 1]), ("B", [20, 2])]⟩
        "SEEDING" = 10
    ∧ specLineGroupTotal ⟨["FAM_SEEDING", "FAM_VOLUMA"], [("A", [10, 1]), ("B", [20, 2])]⟩
        "SEEDING" = 30
    ∧ (10 : ℚ) ≠ 30
    ∧ buildWeeklySummaryTotals [1, 2] [3] [4] [5] = [3, 3, 4, 5] := by
  have h1 : lineGroupTotal
      ⟨["FAM_SEEDING", "FAM_VOLUMA"], [("A", [10, 1]), ("B", [20, 2])]⟩ "SEEDING"
      = sumList [10] := rfl
  have h2 : specLineGroupTotal
      ⟨["FAM_SEEDING", "FAM_VOLUMA"], [("A", [10, 1]), ("B", [20, 2])]⟩ "SEEDING"
      = sumList [10, 20] := rfl
  refine ⟨?_, ?_, by norm_num, ?_⟩
  · rw [h1]; norm_num [sumList]
  · rw [h2]; norm_num [sumList]
  · simp only [buildWeeklySummaryTotals, sumList]
    norm_num

end ShriMP
